import Mathlib

/-!
Verification of the AluVM runtime core (`src/runtime.rs`): the bounded
bytecode buffer `ByteStr`, the content-addressed `Lib` type, the `LibSite`
addressing pair, and the `Runtime` cross-library dispatch loop.

Machine integers are modelled as `Nat`; a Rust panic (assertion failure or
out-of-bounds slice index) is modelled by the `panicked` constructor of
`PanicOr`, since the corresponding Rust functions have no error return
channel at all.
-/

/-- Result of a Rust computation that can panic: `ok` is a normal return,
`panicked` models a process abort (assertion failure / out-of-bounds index).
The Rust originals return a bare value, so a panic is their only failure
mode; no recoverable-error constructor exists. -/
inductive PanicOr (α : Type) where
  | panicked : PanicOr α
  | ok : α → PanicOr α

/-- The size in bytes of the backing array of `ByteStr`:
`u16::MAX as usize`, i.e. 65535 (NOT 65536). -/
def CAP : Nat := 65535

/-- `ByteStr` from `src/runtime.rs`: a fixed backing array of `CAP = 65535`
bytes (modelled as a function on indices; indices `≥ CAP` are irrelevant)
together with the adjusted length field: `some l` stores length `l ≤ 65535`,
`none` is the sentinel for length `u16::MAX + 1 = 65536`. -/
structure ByteStr where
  len? : Option Nat
  bytes : Nat → Nat

/-- `ByteStr::len`: `some l ↦ l`, sentinel `none ↦ 65536`. -/
def ByteStr.len (b : ByteStr) : Nat := b.len?.getD 65536

/-- `ByteStr::default()`: length 0, all bytes zero. -/
def ByteStr.zero : ByteStr := ⟨some 0, fun _ => 0⟩

/-- `ByteStr::with(slice)` translated from the source:
`assert!(len <= u16::MAX as usize + 1)` panics when `len > 65536`; then
`bytes[0..len].copy_from_slice(..)` indexes the `[u8; u16::MAX as usize]`
array and panics when `len > CAP = 65535`; otherwise the buffer holds the
slice followed by zero padding and the length field is set (the `none`
branch for `len > 65535` is kept exactly as in the source, though the
preceding copy already panics in that case). -/
def ByteStr.ofSlice (slice : List Nat) : PanicOr ByteStr :=
  let len := slice.length
  if 65535 + 1 < len then .panicked
  else if CAP < len then .panicked
  else .ok ⟨if CAP < len then none else some len,
            fun i => if i < len then slice.getD i 0 else 0⟩

/-- `ByteStr::as_ref`: `&self.bytes[..self.len()]`, which panics when the
logical length exceeds the `CAP`-byte backing array (the `none` sentinel
case), and otherwise yields the first `len()` stored bytes. -/
def ByteStr.asRef (b : ByteStr) : PanicOr (List Nat) :=
  if CAP < b.len then .panicked
  else .ok ((List.range b.len).map b.bytes)

/-- `ByteStr::adjust_len(new_len, inclusive)` translated arm by arm from the
source `match (self.len, new_len, inclusive)`. -/
def ByteStr.adjustLen (b : ByteStr) (newLen : Nat) (inclusive : Bool) : ByteStr :=
  { b with len? :=
      match b.len?, inclusive with
      | some l, true => if newLen = 65535 then none
                        else if l ≤ newLen then some (newLen + 1) else some l
      | some l, false => if l < newLen then some newLen else some l
      | none, _ => none }

/-- `ByteStr::fill(start..=stop, val)`: first `adjust_len(stop, true)`, then
`self.bytes[start..=stop].fill(val)`, which panics when `stop + 1 > CAP`
(range end past the 65535-byte backing array) or `start > stop + 1`. -/
def ByteStr.fill (b : ByteStr) (start stop : Nat) (val : Nat) : PanicOr ByteStr :=
  let b1 := b.adjustLen stop true
  if CAP < stop + 1 ∨ stop + 1 < start then .panicked
  else .ok { b1 with bytes := fun i => if start ≤ i ∧ i ≤ stop then val else b1.bytes i }
/-- The 32-byte tagged-hash domain constant `LIB_HASH_MIDSTATE` from
`src/runtime.rs`, byte for byte. -/
def LIB_HASH_MIDSTATE : List Nat :=
  [156, 224, 228, 230, 124, 17, 108, 57, 56, 179, 202, 242, 195, 15, 80, 137,
   211, 243, 147, 108, 71, 99, 110, 96, 125, 179, 62, 234, 221, 198, 240, 201]

/-- Modelled from the spec: `LibHash` is produced by `sha256t_hash_newtype!`
from the external `bitcoin_hashes` crate (not part of this repository), a
domain-separated (tagged) SHA256. It is modelled as the free tagged hash —
the pair of the 32-byte domain constant and the exact byte sequence fed to
the hash — so that hash equality is equality of domain constant and hashed
input, and what bytes enter the hash is directly visible. -/
structure LibHash where
  midstate : List Nat
  input : List Nat
deriving DecidableEq

/-- The full content of the fixed backing array, `&*self.bytes`: all `CAP`
stored bytes, logical length ignored. -/
def ByteStr.fullSlice (b : ByteStr) : List Nat := (List.range CAP).map b.bytes

/-- `Lib` from `src/runtime.rs`: an immutable bytecode container. The
instruction-set binding is a phantom type parameter in the source; in the
model the instruction set is passed to `run` explicitly. -/
structure Lib where
  bytecode : ByteStr

/-- `Lib::lib_hash`: `LibHash::hash(&*self.bytecode.bytes)` — the tagged
hash applied to the ENTIRE fixed backing array (all `CAP = 65535` stored
bytes, trailing zero padding included), not to the first `byte_count()`
bytes. -/
def Lib.libHash (l : Lib) : LibHash :=
  ⟨LIB_HASH_MIDSTATE, l.bytecode.fullSlice⟩

/-- `Lib::byte_count`: the logical bytecode length. -/
def Lib.byteCount (l : Lib) : Nat := l.bytecode.len

/-- The hash input prescribed by the spec's words for C2: exactly the first
`byteCount()` bytes of the bytecode, no trailing padding. Stated for
comparison against `Lib.libHash`, which is translated from the source. -/
def Lib.libHashSpec (l : Lib) : LibHash :=
  ⟨LIB_HASH_MIDSTATE, (List.range l.byteCount).map l.bytecode.bytes⟩

/-- The empty library: bytecode of logical length 0 (what `Lib::with([])`
yields — `ByteStr.ofSlice []` returns exactly this buffer). -/
def emptyLib : Lib := ⟨⟨some 0, fun i => if i < 0 then [].getD i 0 else 0⟩⟩

/-- `LibSite` from `src/runtime.rs`: (library hash, byte offset). -/
structure LibSite where
  lib : LibHash
  pos : Nat
deriving DecidableEq

/-- `LibSite::with(pos, lib)`. -/
def LibSite.ofPos (pos : Nat) (lib : LibHash) : LibSite := ⟨lib, pos⟩

/-- Modelled from the spec: the register state lives in the missing
`crate::registers` module; §6 requires "an opaque mutable value exposing at
minimum one boolean status field" — the field the source reads as
`self.registers.st0`. -/
structure Registers where
  st0 : Bool
deriving DecidableEq

/-- Modelled from the spec: `ExecStep` lives in the missing `crate::instr`
module; §4.2 gives the four outcomes of executing one instruction, with the
constructor names used by `src/runtime.rs` (`Stop`, `Next`, `Jump`,
`Call`). -/
inductive ExecStep where
  | Stop : ExecStep
  | Next : ExecStep
  | Jump : Nat → ExecStep
  | Call : LibSite → ExecStep
deriving DecidableEq

/-- Modelled from the spec: the byte `Cursor` lives in the missing
`crate::instr::serialize` module. It is a read position over a byte slice
(`size` is the slice's length); §4.2 step 2 defines end-of-buffer as the
position being at or past the end. -/
structure Cursor where
  bytes : Nat → Nat
  size : Nat
  pos : Nat

/-- `Cursor::with(slice)`: a cursor at position 0 over a slice of the given
length. -/
def Cursor.ofSlice (bytes : Nat → Nat) (size : Nat) : Cursor := ⟨bytes, size, 0⟩

/-- `Cursor::seek(pos)`. -/
def Cursor.seek (c : Cursor) (p : Nat) : Cursor := { c with pos := p }

/-- `Cursor::is_eof()`: at or past end-of-buffer. -/
def Cursor.isEof (c : Cursor) : Bool := decide (c.size ≤ c.pos)

/-- Modelled from the spec: the instruction-set contract of §6 — a decode
operation over a cursor that produces one instruction and the advanced
cursor or fails on malformed input (`Instr::read` returning `Result`, used
as `.ok()` in `run`), and an execute operation taking the register state and
the candidate next site and yielding a four-way `ExecStep`. -/
structure InstrSet where
  Instr : Type
  read : Cursor → Option (Instr × Cursor)
  exec : Instr → Registers → LibSite → Registers × ExecStep

/-- The decode/execute loop of `Lib::run`, translated from the source with
an explicit fuel parameter (the Rust loop can run forever; `none` means the
fuel ran out, `some (res, regs)` means the loop returned `res` with final
register state `regs`). Each iteration: stop with "no further transfer" at
end-of-buffer; decode (a decode failure is `.ok()?`, i.e. an immediate "no
further transfer" return); execute, passing the post-decode position paired
with the library hash; then dispatch on the four-way outcome. -/
def runFrom (E : InstrSet) (h : LibHash) :
    Nat → Cursor → Registers → Option (Option LibSite × Registers)
  | 0, _, _ => none
  | fuel + 1, c, regs =>
    if c.isEof then some (none, regs)
    else
      match E.read c with
      | none => some (none, regs)
      | some (i, c') =>
        match E.exec i regs (LibSite.ofPos c'.pos h) with
        | (regs', ExecStep.Stop) => some (none, regs')
        | (regs', ExecStep.Next) => runFrom E h fuel c' regs'
        | (regs', ExecStep.Jump p) => runFrom E h fuel (c'.seek p) regs'
        | (regs', ExecStep.Call site) => some (some site, regs')

/-- The cursor `Lib::run` starts from: `Cursor::with(&self.bytecode.bytes[..])`
— the ENTIRE fixed backing array, so the slice length is `CAP`, not
`byte_count()` — then `seek(entrypoint)`. -/
def Lib.entryCursor (l : Lib) (entrypoint : Nat) : Cursor :=
  (Cursor.ofSlice l.bytecode.bytes CAP).seek entrypoint

/-- `Lib::run(entrypoint, registers)` with explicit fuel. -/
def Lib.run (l : Lib) (E : InstrSet) (entrypoint : Nat) (regs : Registers)
    (fuel : Nat) : Option (Option LibSite × Registers) :=
  runFrom E l.libHash fuel (l.entryCursor entrypoint) regs

/-- `NoLibraryError(LibHash)` from `src/runtime.rs`. -/
structure NoLibraryError where
  hash : LibHash
deriving DecidableEq

/-- `Runtime` from `src/runtime.rs`: the library registry (a `BTreeMap`
keyed by content hash, modelled as an association list without duplicate
keys), the entrypoint, and the register state. -/
structure Runtime where
  libs : List (LibHash × Lib)
  entrypoint : LibSite
  registers : Registers

/-- `BTreeMap::get(&hash)` on the registry. -/
def lookupLib (h : LibHash) : List (LibHash × Lib) → Option Lib
  | [] => none
  | p :: ps => if p.1 = h then some p.2 else lookupLib h ps

/-- `BTreeMap::insert(hash, lib)`'s effect on the registry: replaces the
value under an existing key, otherwise adds the binding. -/
def insertLib (h : LibHash) (l : Lib) : List (LibHash × Lib) → List (LibHash × Lib)
  | [] => [(h, l)]
  | p :: ps => if p.1 = h then (h, l) :: ps else p :: insertLib h l ps

/-- `Runtime::new()`: empty registry, default entrypoint and registers (the
default register contents live in the missing `crate::registers` module;
only the registry matters to the claims below). -/
def Runtime.new : Runtime := ⟨[], ⟨⟨[], []⟩, 0⟩, ⟨true⟩⟩

/-- `Runtime::add_lib(lib)`: `self.libs.insert(lib.lib_hash(), lib).is_none()`
— returns whether the hash was absent, and the updated runtime. -/
def Runtime.addLib (r : Runtime) (l : Lib) : Bool × Runtime :=
  ((lookupLib l.libHash r.libs).isNone, { r with libs := insertLib l.libHash l r.libs })

/-- `Runtime::call(method)`, translated from the source with fuel for the
trampoline loop (`runFuel` is handed to each inner `Lib::run`): look the
site's hash up in the registry — absent means an immediate
`Err(NoLibraryError(hash))` — run the library, re-dispatch on a returned
transfer site, and when the run returns no transfer produce
`Ok(self.registers.st0)`. `none` means some fuel ran out. -/
def Runtime.call (E : InstrSet) (runFuel : Nat) :
    Nat → Runtime → LibSite → Option (Except NoLibraryError Bool × Runtime)
  | 0, _, _ => none
  | fuel + 1, r, method =>
    match lookupLib method.lib r.libs with
    | none => some (.error ⟨method.lib⟩, r)
    | some lib =>
      match lib.run E method.pos r.registers runFuel with
      | none => none
      | some (some m, regs') =>
          Runtime.call E runFuel fuel { r with registers := regs' } m
      | some (none, regs') => some (.ok regs'.st0, { r with registers := regs' })

/-- One decode/execute step relation used to reason about `run`'s loop:
`Reaches E h c regs c2 regs2` holds when the loop, started at cursor `c`
with registers `regs`, arrives at cursor `c2` with registers `regs2` through
zero or more non-returning Continue/Jump outcomes. -/
inductive Reaches (E : InstrSet) (h : LibHash) :
    Cursor → Registers → Cursor → Registers → Prop where
  | refl (c : Cursor) (regs : Registers) : Reaches E h c regs c regs
  | jump {c : Cursor} {regs : Registers} {i : E.Instr} {c' : Cursor}
      {regs' : Registers} {p : Nat} {c2 : Cursor} {regs2 : Registers} :
      c.isEof = false → E.read c = some (i, c') →
      E.exec i regs (LibSite.ofPos c'.pos h) = (regs', ExecStep.Jump p) →
      Reaches E h (c'.seek p) regs' c2 regs2 → Reaches E h c regs c2 regs2
  | next {c : Cursor} {regs : Registers} {i : E.Instr} {c' : Cursor}
      {regs' : Registers} {c2 : Cursor} {regs2 : Registers} :
      c.isEof = false → E.read c = some (i, c') →
      E.exec i regs (LibSite.ofPos c'.pos h) = (regs', ExecStep.Next) →
      Reaches E h c' regs' c2 regs2 → Reaches E h c regs c2 regs2

/-- A hash value that names no registered library: any `LibHash` value can
sit inside a `LibSite` (the site type places no validity constraint on its
hash), so a `Call` may target a hash absent from every registry. -/
def garbageHash : LibHash := ⟨[1], [2]⟩

/-- A small concrete instruction set used to instantiate the contract in
witnesses: opcode 0 halts, 1 continues, 2 jumps to the operand byte, 3 calls
`(garbageHash, operand byte)`, and any other opcode fails to decode. -/
def testIsa : InstrSet where
  Instr := Nat × Nat
  read := fun c =>
    let op := c.bytes c.pos
    if op = 0 then some ((0, 0), c.seek (c.pos + 1))
    else if op = 1 then some ((1, 0), c.seek (c.pos + 1))
    else if op = 2 then some ((2, c.bytes (c.pos + 1)), c.seek (c.pos + 2))
    else if op = 3 then some ((3, c.bytes (c.pos + 1)), c.seek (c.pos + 2))
    else none
  exec := fun i regs _ =>
    if i.1 = 0 then (regs, ExecStep.Stop)
    else if i.1 = 1 then (regs, ExecStep.Next)
    else if i.1 = 2 then (regs, ExecStep.Jump i.2)
    else (regs, ExecStep.Call ⟨garbageHash, i.2⟩)

/-- Register state with the status flag raised. -/
def regsT : Registers := ⟨true⟩

/-- A library whose program is the single halt instruction (byte 0 at
offset 0). -/
def libHalt : Lib := ⟨⟨some 1, fun _ => 0⟩⟩

/-- Entry site of `libHalt`. -/
def siteHalt : LibSite := ⟨libHalt.libHash, 0⟩

/-- A runtime with `libHalt` registered and the status flag raised. -/
def rtHalt : Runtime := ⟨[(libHalt.libHash, libHalt)], siteHalt, regsT⟩

/-- A library whose program is a single `Call` to `(garbageHash, 7)`
(opcode 3 at offset 0, operand byte 7 at offset 1). -/
def libCall : Lib := ⟨⟨some 2, fun i => if i = 0 then 3 else if i = 1 then 7 else 0⟩⟩

/-- Entry site of `libCall`. -/
def siteCall : LibSite := ⟨libCall.libHash, 0⟩

/-- A runtime with `libCall` registered. -/
def rtCall : Runtime := ⟨[(libCall.libHash, libCall)], siteCall, regsT⟩

/-- A library whose buffer holds opcode 255 everywhere: decoding fails at
every offset. -/
def libBad : Lib := ⟨⟨some 1, fun _ => 255⟩⟩

/-- Entry site of `libBad`. -/
def siteBad : LibSite := ⟨libBad.libHash, 0⟩

/-- A runtime with `libBad` registered. -/
def rtBad : Runtime := ⟨[(libBad.libHash, libBad)], siteBad, regsT⟩

/-- A library with logical byte count 0 whose backing array nonetheless
holds a `Call` encoding at offsets 10 and 11 — the region past
`byteCount()` that the spec calls padding. -/
def libPad : Lib := ⟨⟨some 0, fun i => if i = 10 then 3 else if i = 11 then 7 else 0⟩⟩

/-- Byte layout with a jump at offset 0 to offset 4, a jump at offset 4 to
offset 8, and a halt at offset 8. -/
def jumpBytes : Nat → Nat := fun i =>
  if i = 0 then 2 else if i = 1 then 4
  else if i = 4 then 2 else if i = 5 then 8 else 0

/-- Cursor at the start of `jumpBytes` over a full-capacity slice. -/
def cJump : Cursor := ⟨jumpBytes, CAP, 0⟩


/-- Length-65535 round trip: `with` on a source of length `≤ 65535` succeeds
and `as_ref` reads the identical sequence back. Shared support lemma. -/
theorem ofSlice_roundtrip (slice : List Nat) (h : slice.length ≤ CAP) :
    ∃ b : ByteStr, ByteStr.ofSlice slice = .ok b ∧ b.len = slice.length ∧
      b.asRef = .ok slice := by
  refine ⟨⟨some slice.length, fun i => if i < slice.length then slice.getD i 0 else 0⟩, ?_, ?_, ?_⟩
  · have h1 : ¬ 65535 + 1 < slice.length := by unfold CAP at h; omega
    have h2 : ¬ CAP < slice.length := by unfold CAP at h ⊢; omega
    simp [ByteStr.ofSlice, h1, h2]
  · simp [ByteStr.len]
  · have h2 : ¬ CAP < slice.length := by unfold CAP at h ⊢; omega
    simp only [ByteStr.asRef, ByteStr.len, Option.getD_some, h2, if_false]
    congr 1
    apply List.ext_getElem
    · simp
    · intro i hi hj
      simp_all [List.getD_eq_getElem?_getD, List.getElem?_eq_getElem]

/-- Growth lemma for `adjust_len(stop, true)`: afterwards the logical length
covers index `stop`. Shared support lemma. -/
theorem adjustLen_inclusive_covers (b : ByteStr) (stop : Nat) (h : stop ≤ 65535) :
    stop + 1 ≤ (b.adjustLen stop true).len := by
  rcases b with ⟨l?, f⟩
  rcases l? with _ | l
  · simp [ByteStr.adjustLen, ByteStr.len]; omega
  · simp only [ByteStr.adjustLen, ByteStr.len]
    by_cases hs : stop = 65535
    · simp [hs]
    · by_cases hl : l ≤ stop
      · simp [hs, hl]
      · simp [hs, hl]; omega

/-- `fill` succeeds away from the top boundary: for `start ≤ stop` and
`stop + 1 ≤ CAP` (i.e. `stop ≤ 65534`) it sets the range and covers it.
Shared support lemma. -/
theorem fill_ok (b : ByteStr) (start stop val : Nat) (h1 : start ≤ stop)
    (h2 : stop + 1 ≤ CAP) :
    ∃ b', b.fill start stop val = .ok b' ∧
      (∀ i, start ≤ i → i ≤ stop → b'.bytes i = val) ∧ stop + 1 ≤ b'.len := by
  have hc : ¬ (CAP < stop + 1 ∨ stop + 1 < start) := by omega
  refine ⟨{ b.adjustLen stop true with
            bytes := fun i => if start ≤ i ∧ i ≤ stop then val
                              else (b.adjustLen stop true).bytes i }, ?_, ?_, ?_⟩
  · simp only [ByteStr.fill, hc, if_false]
  · intro i hi1 hi2
    simp [hi1, hi2]
  · exact adjustLen_inclusive_covers b stop (by unfold CAP at h2; omega)

/-- Claim C1: bounded-buffer construction was specified to succeed for every
source length N with 0 ≤ N ≤ 65536. The code instead panics at N = 65536:
`copy_from_slice` writes `bytes[0..65536]` into the backing array, whose
size is `u16::MAX as usize` = 65535, one byte too small for the sentinel
length the very same constructor is prepared to set. This theorem evaluates
the translated constructor at the failing input (65536 zero bytes). -/
theorem c1_with_65536_panics :
    ByteStr.ofSlice (List.replicate 65536 0) = PanicOr.panicked := by
  unfold ByteStr.ofSlice
  rw [List.length_replicate]
  norm_num [CAP]

/-- Claim C3, counterexample: the claim says a source longer than 65536
bytes makes construction fail with a recoverable error value; at a source of
65537 zero bytes the code instead panics (`assert!` failure) — the
constructor's return type has no error channel at all, so `panicked` (a
process abort) is its only failure mode. -/
theorem c3_with_65537_panics :
    ByteStr.ofSlice (List.replicate 65537 0) = PanicOr.panicked := by
  unfold ByteStr.ofSlice
  rw [List.length_replicate]
  norm_num

/-- Claim C3, amended: for every source of length N > 65536 the bounded
buffer constructor aborts the process (assertion panic); it does not return
a recoverable error value to the caller. -/
theorem c3_with_oversized_panics (slice : List Nat) (h : 65536 < slice.length) :
    ByteStr.ofSlice slice = PanicOr.panicked := by
  have h1 : 65535 + 1 < slice.length := by omega
  simp only [ByteStr.ofSlice, h1, if_true, if_pos]

/-- Witness for `c3_with_oversized_panics` at a source of 70000 zero bytes. -/
theorem c3_with_oversized_panics_witness :
    65536 < (List.replicate 70000 0).length ∧
      ByteStr.ofSlice (List.replicate 70000 0) = PanicOr.panicked :=
  ⟨by rw [List.length_replicate]; norm_num,
   c3_with_oversized_panics (List.replicate 70000 0) (by rw [List.length_replicate]; norm_num)⟩

/-- Claim C4: `fill([start, end], v)` was specified to work for every
inclusive range with end ≤ 65535, including end = 65535 (growing the length
to the 65536 sentinel first). The code's own `adjust_len` implements exactly
that sentinel promotion, but the subsequent slice `bytes[start..=65535]`
overruns the 65535-byte backing array and panics. This theorem evaluates
`ByteStr::default().fill(0..=65535, 1)` to the panic. -/
theorem c4_fill_to_65535_panics :
    ByteStr.zero.fill 0 65535 1 = PanicOr.panicked := by
  unfold ByteStr.fill
  norm_num [CAP]

/-- `ByteStr.ofSlice []` produces exactly `emptyLib`'s buffer. Shared
support lemma. -/
theorem ofSlice_nil_eq : ByteStr.ofSlice [] = .ok emptyLib.bytecode := by
  unfold ByteStr.ofSlice emptyLib
  norm_num [CAP]

/-- Claim C2, counterexample: for the empty library (byte count 0) the hash
input used by the code is the whole 65535-byte backing array, not the empty
byte sequence the claim prescribes, so the two tagged hashes differ. -/
theorem c2_hash_input_differs : Lib.libHash emptyLib ≠ Lib.libHashSpec emptyLib := by
  intro h
  have h1 : (Lib.libHash emptyLib).input.length = (Lib.libHashSpec emptyLib).input.length := by
    rw [h]
  have hA : (Lib.libHash emptyLib).input.length = CAP := by
    unfold Lib.libHash ByteStr.fullSlice
    rw [List.length_map, List.length_range]
  have hB : (Lib.libHashSpec emptyLib).input.length = 0 := by
    unfold Lib.libHashSpec
    rw [List.length_map, List.length_range]
    simp [Lib.byteCount, emptyLib, ByteStr.len]
  rw [hA, hB] at h1
  exact absurd h1 (by norm_num [CAP])

/-- Claim C2, amended: `lib_hash` is the tagged hash whose domain constant
is bit-for-bit the 32-byte `LIB_HASH_MIDSTATE` sequence, applied with no
length prefix or framing to the entire fixed backing array: the hashed input
always has length `CAP = 65535` whatever `byteCount()` is, and its byte at
every index `i < CAP` is the stored byte at `i` (bytecode for
`i < byteCount()`, zero padding above). -/
theorem c2_hash_of_full_buffer (l : Lib) :
    (l.libHash).midstate = LIB_HASH_MIDSTATE ∧
      (l.libHash).input.length = CAP ∧
      ∀ i, i < CAP → (l.libHash).input.getD i 0 = l.bytecode.bytes i := by
  refine ⟨rfl, by simp [Lib.libHash, ByteStr.fullSlice], ?_⟩
  intro i hi
  simp [Lib.libHash, ByteStr.fullSlice, List.getD_eq_getElem?_getD,
    List.getElem?_map, List.getElem?_range, hi]

/-- Witness for `c2_hash_of_full_buffer` at the empty library and index 7:
the hashed input is 65535 bytes long and its byte 7 is the padding zero. -/
theorem c2_hash_of_full_buffer_witness :
    (Lib.libHash emptyLib).midstate = LIB_HASH_MIDSTATE ∧
      (Lib.libHash emptyLib).input.length = CAP ∧
      (Lib.libHash emptyLib).input.getD 7 0 = emptyLib.bytecode.bytes 7 := by
  obtain ⟨h1, h2, h3⟩ := c2_hash_of_full_buffer emptyLib
  exact ⟨h1, h2, h3 7 (by norm_num [CAP])⟩
/-- Inserting under an absent key appends the binding. Shared support
lemma. -/
theorem insertLib_absent (h : LibHash) (l : Lib) (ls : List (LibHash × Lib))
    (hab : lookupLib h ls = none) : insertLib h l ls = ls ++ [(h, l)] := by
  induction ls with
  | nil => rfl
  | cons p ps ih =>
    by_cases hp : p.1 = h
    · simp [lookupLib, hp] at hab
    · simp only [lookupLib, hp, if_false] at hab
      simp [insertLib, hp, ih hab]

/-- After appending a binding for a previously absent key, lookup finds it.
Shared support lemma. -/
theorem lookupLib_append_self (h : LibHash) (l : Lib) (ls : List (LibHash × Lib))
    (hab : lookupLib h ls = none) : lookupLib h (ls ++ [(h, l)]) = some l := by
  induction ls with
  | nil => simp [lookupLib]
  | cons p ps ih =>
    by_cases hp : p.1 = h
    · simp [lookupLib, hp] at hab
    · simp only [lookupLib, hp, if_false] at hab
      simpa [lookupLib, hp] using ih hab

/-- Re-inserting the identical binding leaves the registry unchanged.
Shared support lemma. -/
theorem insertLib_self (h : LibHash) (l : Lib) (ls : List (LibHash × Lib))
    (hab : lookupLib h ls = none) : insertLib h l (ls ++ [(h, l)]) = ls ++ [(h, l)] := by
  induction ls with
  | nil => simp [insertLib]
  | cons p ps ih =>
    by_cases hp : p.1 = h
    · simp [lookupLib, hp] at hab
    · simp only [lookupLib, hp, if_false] at hab
      simp [insertLib, hp, ih hab]

/-- Claim C9: `add_lib` returns true exactly when no library with the same
content hash was registered; adding the same library twice leaves the first
call returning true, the second false, the registry unchanged by the second
insert (the identical binding is written back), and the size grown by
exactly one binding (so size 1 from an empty runtime). -/
theorem c9_addLib_dedup (r : Runtime) (l : Lib) :
    ((r.addLib l).1 = true ↔ lookupLib l.libHash r.libs = none) ∧
    (lookupLib l.libHash r.libs = none →
      (r.addLib l).1 = true ∧
      (((r.addLib l).2).addLib l).1 = false ∧
      (((r.addLib l).2).addLib l).2.libs = ((r.addLib l).2).libs ∧
      ((r.addLib l).2).libs.length = r.libs.length + 1) := by
  constructor
  · simp [Runtime.addLib, Option.isNone_iff_eq_none]
  · intro hab
    have h0 : insertLib l.libHash l r.libs = r.libs ++ [(l.libHash, l)] :=
      insertLib_absent l.libHash l r.libs hab
    have h2 : lookupLib l.libHash (insertLib l.libHash l r.libs) = some l := by
      rw [h0]; exact lookupLib_append_self l.libHash l r.libs hab
    refine ⟨by simp [Runtime.addLib, hab], ?_, ?_, ?_⟩
    · simp [Runtime.addLib, h2]
    · simp only [Runtime.addLib]
      rw [h0]
      exact insertLib_self l.libHash l r.libs hab
    · simp [Runtime.addLib, h0]

/-- Witness for `c9_addLib_dedup`: adding the empty library twice to a fresh
runtime — true then false, second insert a no-op, final registry size 1. -/
theorem c9_addLib_dedup_witness :
    (Runtime.new.addLib emptyLib).1 = true ∧
      ((Runtime.new.addLib emptyLib).2.addLib emptyLib).1 = false ∧
      ((Runtime.new.addLib emptyLib).2.addLib emptyLib).2.libs =
        (Runtime.new.addLib emptyLib).2.libs ∧
      (Runtime.new.addLib emptyLib).2.libs.length = 1 :=
  (c9_addLib_dedup Runtime.new emptyLib).2 rfl

/-- Claim C5: `Runtime::call` is a flat re-dispatch loop over the current
site: when the resolved library's `run` reports "transfer to m" the loop
continues at `m` with the updated registers (the call at the next fuel
step), and when `run` reports "no further transfer" the loop stops and the
result is `Ok` of the distinguished status flag `st0` read from the register
state left by the loop. -/
theorem c5_call_trampoline (E : InstrSet) (runFuel fuel : Nat) (r : Runtime)
    (method : LibSite) (lib : Lib) (regs' : Registers) (m : LibSite)
    (hlook : lookupLib method.lib r.libs = some lib) :
    (lib.run E method.pos r.registers runFuel = some (none, regs') →
       Runtime.call E runFuel (fuel + 1) r method =
         some (.ok regs'.st0, { r with registers := regs' })) ∧
    (lib.run E method.pos r.registers runFuel = some (some m, regs') →
       Runtime.call E runFuel (fuel + 1) r method =
         Runtime.call E runFuel fuel { r with registers := regs' } m) := by
  constructor
  · intro hrun
    simp [Runtime.call, hlook, hrun]
  · intro hrun
    simp [Runtime.call, hlook, hrun]

/-- Witness for `c5_call_trampoline`: a runtime holding only the single-halt
library; the chain ends after one run and yields `Ok` of the raised status
flag. -/
theorem c5_call_trampoline_witness :
    Runtime.call testIsa 1 1 rtHalt siteHalt = some (.ok true, rtHalt) :=
  (c5_call_trampoline testIsa 1 0 rtHalt siteHalt libHalt regsT siteHalt
    (by simp [rtHalt, siteHalt, lookupLib])).1 rfl

/-- Claim C6: a site whose library hash is absent from the registry makes
`Runtime::call` fail at once with `NoLibraryError` carrying exactly that
hash — both when the site is the one passed in and when it is reached
mid-chain through a `Call` transfer — with no internal retry (the equation
holds whatever fuel remains). -/
theorem c6_unknown_library (E : InstrSet) (runFuel fuel : Nat) (r : Runtime)
    (method : LibSite) (lib : Lib) (m : LibSite) (regs' : Registers) :
    (lookupLib method.lib r.libs = none →
       Runtime.call E runFuel (fuel + 1) r method =
         some (.error ⟨method.lib⟩, r)) ∧
    (lookupLib method.lib r.libs = some lib →
       lib.run E method.pos r.registers runFuel = some (some m, regs') →
       lookupLib m.lib r.libs = none →
       Runtime.call E runFuel (fuel + 1 + 1) r method =
         some (.error ⟨m.lib⟩, { r with registers := regs' })) := by
  constructor
  · intro hab
    simp [Runtime.call, hab]
  · intro hlook hrun hab
    have hstep : Runtime.call E runFuel (fuel + 1 + 1) r method =
        Runtime.call E runFuel (fuel + 1) { r with registers := regs' } m := by
      simp [Runtime.call, hlook, hrun]
    rw [hstep]
    simp [Runtime.call, hab]

/-- Witness for `c6_unknown_library`: direct dispatch from an empty registry
fails with the missing hash, and a `Call` into `garbageHash` from the
registered `libCall` fails mid-chain with exactly `garbageHash`. -/
theorem c6_unknown_library_witness :
    Runtime.call testIsa 1 1 Runtime.new ⟨garbageHash, 0⟩ =
        some (.error ⟨garbageHash⟩, Runtime.new) ∧
      Runtime.call testIsa 1 2 rtCall siteCall =
        some (.error ⟨garbageHash⟩, rtCall) := by
  have hne : libCall.libHash ≠ garbageHash := by
    intro h
    have := congrArg LibHash.midstate h
    simp only [Lib.libHash, garbageHash] at this
    exact absurd this (by decide)
  constructor
  · exact (c6_unknown_library testIsa 1 0 Runtime.new ⟨garbageHash, 0⟩ libCall
      ⟨garbageHash, 0⟩ regsT).1 rfl
  · exact (c6_unknown_library testIsa 1 0 rtCall siteCall libCall
      ⟨garbageHash, 7⟩ regsT).2
      (by simp [rtCall, siteCall, lookupLib])
      rfl
      (by simp only [rtCall, lookupLib, hne, if_false])

/-- Claim C7: a decode failure inside `run` is absorbed into the halt path:
the loop returns "no further transfer" with the registers untouched
(`Instr::read(..).ok()?`), and through `Runtime::call` such a run ends the
chain with `Ok(st0)` — the decode failure is never surfaced as an error to
either caller (`call`'s only error type is the unknown-library error). -/
theorem c7_decode_failure_halts (E : InstrSet) (h : LibHash) (fuel : Nat)
    (c : Cursor) (regs : Registers) (rf fuel2 : Nat) (r : Runtime)
    (method : LibSite) (lib : Lib) :
    (c.isEof = false → E.read c = none →
       runFrom E h (fuel + 1) c regs = some (none, regs)) ∧
    (lookupLib method.lib r.libs = some lib →
       (lib.entryCursor method.pos).isEof = false →
       E.read (lib.entryCursor method.pos) = none →
       Runtime.call E (rf + 1) (fuel2 + 1) r method =
         some (.ok r.registers.st0, r)) := by
  have part1 : ∀ (fl : Nat) (c1 : Cursor) (rg : Registers), c1.isEof = false →
      E.read c1 = none → runFrom E h (fl + 1) c1 rg = some (none, rg) := by
    intro fl c1 rg heof hread
    simp [runFrom, heof, hread]
  refine ⟨part1 fuel c regs, ?_⟩
  intro hlook heof hread
  have hrun : lib.run E method.pos r.registers (rf + 1) =
      some (none, r.registers) := by
    unfold Lib.run
    exact_mod_cast (by
      simp [runFrom, heof, hread] :
        runFrom E lib.libHash (rf + 1) (lib.entryCursor method.pos) r.registers =
          some (none, r.registers))
  simp [Runtime.call, hlook, hrun]

/-- Witness for `c7_decode_failure_halts`: `libBad` decodes to garbage at
offset 0; its run halts silently and the call chain returns `Ok true`. -/
theorem c7_decode_failure_halts_witness :
    runFrom testIsa garbageHash 1 (libBad.entryCursor 0) regsT =
        some (none, regsT) ∧
      Runtime.call testIsa 1 1 rtBad siteBad = some (.ok true, rtBad) := by
  constructor
  · exact (c7_decode_failure_halts testIsa garbageHash 0 (libBad.entryCursor 0)
      regsT 0 0 rtBad siteBad libBad).1 rfl rfl
  · exact (c7_decode_failure_halts testIsa garbageHash 0 (libBad.entryCursor 0)
      regsT 0 0 rtBad siteBad libBad).2
      (by simp [rtBad, siteBad, lookupLib]) rfl rfl

/-- Jump step equation for the run loop: a `Jump` outcome never returns, it
re-enters the loop at the repositioned cursor. Shared support lemma. -/
theorem runFrom_jump_step (E : InstrSet) (h : LibHash) (fuel : Nat) (c : Cursor)
    (regs : Registers) (i : E.Instr) (c' : Cursor) (regs' : Registers) (p : Nat)
    (heof : c.isEof = false) (hread : E.read c = some (i, c'))
    (hexec : E.exec i regs (LibSite.ofPos c'.pos h) = (regs', ExecStep.Jump p)) :
    runFrom E h (fuel + 1) c regs = runFrom E h fuel (c'.seek p) regs' := by
  simp [runFrom, heof, hread, hexec]

/-- Continue step equation for the run loop. Shared support lemma. -/
theorem runFrom_next_step (E : InstrSet) (h : LibHash) (fuel : Nat) (c : Cursor)
    (regs : Registers) (i : E.Instr) (c' : Cursor) (regs' : Registers)
    (heof : c.isEof = false) (hread : E.read c = some (i, c'))
    (hexec : E.exec i regs (LibSite.ofPos c'.pos h) = (regs', ExecStep.Next)) :
    runFrom E h (fuel + 1) c regs = runFrom E h fuel c' regs' := by
  simp [runFrom, heof, hread, hexec]

/-- Claim C8: an intra-library `Jump` never terminates a `run` invocation —
it only repositions the cursor and continues the same loop — while a `Call`
terminates it immediately with "transfer to site"; consequently whatever the
loop eventually returns after any chain of Jump/Continue steps (a halt, an
end-of-buffer stop, a decode-failure stop, or a call transfer) is returned
by the single original `run` invocation. -/
theorem c8_jump_never_returns (E : InstrSet) (h : LibHash) :
    (∀ (fuel : Nat) (c : Cursor) (regs : Registers) (i : E.Instr) (c' : Cursor)
        (regs' : Registers) (p : Nat),
        c.isEof = false → E.read c = some (i, c') →
        E.exec i regs (LibSite.ofPos c'.pos h) = (regs', ExecStep.Jump p) →
        runFrom E h (fuel + 1) c regs = runFrom E h fuel (c'.seek p) regs') ∧
    (∀ (fuel : Nat) (c : Cursor) (regs : Registers) (i : E.Instr) (c' : Cursor)
        (regs' : Registers) (site : LibSite),
        c.isEof = false → E.read c = some (i, c') →
        E.exec i regs (LibSite.ofPos c'.pos h) = (regs', ExecStep.Call site) →
        runFrom E h (fuel + 1) c regs = some (some site, regs')) ∧
    (∀ (c c2 : Cursor) (regs regs2 : Registers)
        (res : Option LibSite × Registers) (f : Nat),
        Reaches E h c regs c2 regs2 →
        runFrom E h f c2 regs2 = some res →
        ∃ F, runFrom E h F c regs = some res) := by
  refine ⟨?_, ?_, ?_⟩
  · exact fun fuel c regs i c' regs' p heof hread hexec =>
      runFrom_jump_step E h fuel c regs i c' regs' p heof hread hexec
  · intro fuel c regs i c' regs' site heof hread hexec
    simp [runFrom, heof, hread, hexec]
  · intro c c2 regs regs2 res f hreach
    induction hreach with
    | refl c0 regs0 => exact fun hf => ⟨f, hf⟩
    | jump heof hread hexec _ ih =>
      intro hf
      obtain ⟨F, hF⟩ := ih hf
      exact ⟨F + 1, by
        rw [runFrom_jump_step E h F _ _ _ _ _ _ heof hread hexec]; exact hF⟩
    | next heof hread hexec _ ih =>
      intro hf
      obtain ⟨F, hF⟩ := ih hf
      exact ⟨F + 1, by
        rw [runFrom_next_step E h F _ _ _ _ _ heof hread hexec]; exact hF⟩

/-- Witness for `c8_jump_never_returns`: from offset 0, `jumpBytes` jumps to
offset 4, jumps again to offset 8, and halts there; the whole chain is
absorbed into a single `runFrom` return of "no further transfer". -/
theorem c8_jump_never_returns_witness :
    ∃ F, runFrom testIsa garbageHash F cJump regsT = some (none, regsT) := by
  have hreach : Reaches testIsa garbageHash cJump regsT ⟨jumpBytes, CAP, 8⟩ regsT :=
    Reaches.jump rfl rfl rfl
      (Reaches.jump rfl rfl rfl
        (Reaches.refl ⟨jumpBytes, CAP, 8⟩ regsT))
  exact (c8_jump_never_returns testIsa garbageHash).2.2 cJump ⟨jumpBytes, CAP, 8⟩
    regsT regsT (none, regsT) 1 hreach rfl

/-- Claim C10: the read cursor of `run` spans the ENTIRE fixed backing array
(`&self.bytecode.bytes[..]`, all `CAP = 65535` stored bytes), not the first
`byteCount()` bytes: the end-of-buffer test compares the position against
the fixed capacity, and an entrypoint at or past `byteCount()` but below
`CAP` is not end-of-buffer — `run` attempts to decode the padding there, and
whatever that decode/execute step yields (here: a `Call`) is carried out. -/
theorem c10_cursor_spans_capacity (E : InstrSet) (l : Lib) (entry : Nat)
    (regs : Registers) (fuel : Nat) (i : E.Instr) (c' : Cursor)
    (regs' : Registers) (site : LibSite) :
    ((l.entryCursor entry).size = CAP ∧
       (l.entryCursor entry).isEof = decide (CAP ≤ entry)) ∧
    (l.byteCount ≤ entry → entry < CAP →
       (l.entryCursor entry).isEof = false ∧
       (E.read (l.entryCursor entry) = some (i, c') →
        E.exec i regs (LibSite.ofPos c'.pos l.libHash) = (regs', ExecStep.Call site) →
        l.run E entry regs (fuel + 1) = some (some site, regs'))) := by
  refine ⟨⟨rfl, rfl⟩, ?_⟩
  intro _ hlt
  have heof : (l.entryCursor entry).isEof = false := by
    simp [Lib.entryCursor, Cursor.ofSlice, Cursor.seek, Cursor.isEof]
    omega
  refine ⟨heof, ?_⟩
  intro hread hexec
  unfold Lib.run
  simp [runFrom, heof, hread, hexec]

/-- Witness for `c10_cursor_spans_capacity`: `libPad` has byte count 0, yet
entering it at offset 10 decodes the `Call` encoding stored in the padding
and transfers to `(garbageHash, 7)`. -/
theorem c10_cursor_spans_capacity_witness :
    (libPad.entryCursor 10).isEof = false ∧
      libPad.run testIsa 10 regsT 1 = some (some ⟨garbageHash, 7⟩, regsT) := by
  have h := (c10_cursor_spans_capacity testIsa libPad 10 regsT 0
    ((3 : Nat), (7 : Nat)) ⟨libPad.bytecode.bytes, CAP, 12⟩ regsT
    ⟨garbageHash, 7⟩).2 (by decide) (by decide)
  exact ⟨h.1, h.2 rfl rfl⟩
